import Mathlib

/-!
A shallow embedding of `docs/qe_apidoc.py`, a documentation-scaffolding
script with two modes: a flat layout (`all_auto`, selected by the CLI
token "single") and a split layout (`model_tool`, the default).

The script's filesystem behaviour is modelled as a pure function from the
glob results (lists of path strings) and a predicate giving which output
directories already exist, to a list of filesystem events (directory
creations and file writes) in program order.  Python string operations
(`split`, `[:-3]`, `capitalize`, `join`, `sort`, `list.remove`) are
embedded as structurally recursive functions on `List Char` so that all
definitions evaluate by kernel reduction.
-/

/-- Embeds Python `s.split(sep)` for a one-character separator `sep`,
working on the character list of the string. -/
def splitOnChar (sep : Char) : List Char → List (List Char)
  | [] => [[]]
  | a :: as =>
    if a = sep then [] :: splitOnChar sep as
    else
      match splitOnChar sep as with
      | [] => [[a]]
      | h :: t => (a :: h) :: t

/-- Lexicographic comparison of character lists by code point: embeds the
ordering Python uses to compare strings. -/
def lexLe : List Char → List Char → Bool
  | [], _ => true
  | _ :: _, [] => false
  | a :: as, b :: bs => if a = b then lexLe as bs else decide (a < b)

/-- Python string `<=`: lexicographic by code point. -/
def pyStrLe (a b : String) : Bool := lexLe a.data b.data

/-- Strict version of `pyStrLe`: `a` is lexically strictly before `b`. -/
def pyStrLt (a b : String) : Prop := pyStrLe a b = true ∧ a ≠ b

instance pyStrLt_decidable (a b : String) : Decidable (pyStrLt a b) :=
  inferInstanceAs (Decidable (pyStrLe a b = true ∧ a ≠ b))

/-- Embeds Python `list.sort()` on a list of strings: the unique
permutation sorted for `pyStrLe` (insertion sort is a stable sorting
algorithm, as Python's sort is). -/
def pySort (l : List String) : List String :=
  List.insertionSort (fun a b => pyStrLe a b = true) l

/-- Embeds `x.split('/')[-1]` (line 164 / 188 / 194 / 200 / 206 / 213 of
the script): the last `/`-separated component of a path. -/
def basename (s : String) : String := String.mk ((splitOnChar '/' s.data).getLastD [])

/-- Embeds Python `x[:-3]`: drop the last three characters (used to strip
the `.py` suffix in `model_tool`). -/
def stripPy (s : String) : String := String.mk (s.data.take (s.data.length - 3))

/-- Embeds `mod.split(".")[0]` (lines 172 and 179): the part of the name
before the first dot. -/
def flat_mod_name (s : String) : String := String.mk ((splitOnChar '.' s.data).headD [])

/-- Embeds `"=" * len(mod)`: an `=` underline of the same length. -/
def eqUnderline (s : String) : String := String.mk (List.replicate s.length '=')

/-- Embeds Python `str.capitalize()`: first character uppercased, all
remaining characters lowercased.  (ASCII case mapping, which coincides
with Python's on the group labels the script uses.) -/
def pyCapitalize (s : String) : String :=
  match s.data with
  | [] => ""
  | c :: cs => String.mk (c.toUpper :: cs.map Char.toLower)

/-- Embeds Python `sep.join(xs)`. -/
def pyJoin (sep : String) : List String → String
  | [] => ""
  | [x] => x
  | x :: y :: xs => x ++ sep ++ pyJoin sep (y :: xs)

/-- A file (base) name matches the glob pattern `[a-z0-9]*.py`: first
character a lowercase letter or digit, name ends in `.py`, and (being a
single path component) contains no `/`. -/
def matchesToolGlob (s : String) : Bool :=
  match s.data with
  | [] => false
  | c :: _ =>
    (c.isLower || c.isDigit)
      && (match s.data.reverse with
          | 'y' :: 'p' :: '.' :: _ => true
          | _ => false)
      && !(s.data.contains '/')

/-- `module_template` of the script, with the `{mod_name}` and `{equals}`
placeholders substituted. -/
def module_template (mod_name equals : String) : String :=
  mod_name ++ "\n" ++ equals ++ "\n\n.. automodule:: quantecon." ++ mod_name
    ++ "\n    :members:\n    :undoc-members:\n    :show-inheritance:\n"

/-- `game_theory_module_template` of the script. -/
def game_theory_module_template (mod_name equals : String) : String :=
  mod_name ++ "\n" ++ equals ++ "\n\n.. automodule:: quantecon.game_theory." ++ mod_name
    ++ "\n    :members:\n    :undoc-members:\n    :show-inheritance:\n"

/-- `markov_module_template` of the script. -/
def markov_module_template (mod_name equals : String) : String :=
  mod_name ++ "\n" ++ equals ++ "\n\n.. automodule:: quantecon.markov." ++ mod_name
    ++ "\n    :members:\n    :undoc-members:\n    :show-inheritance:\n"

/-- `random_module_template` of the script. -/
def random_module_template (mod_name equals : String) : String :=
  mod_name ++ "\n" ++ equals ++ "\n\n.. automodule:: quantecon.random." ++ mod_name
    ++ "\n    :members:\n    :undoc-members:\n    :show-inheritance:\n"

/-- `util_module_template` of the script. -/
def util_module_template (mod_name equals : String) : String :=
  mod_name ++ "\n" ++ equals ++ "\n\n.. automodule:: quantecon.util." ++ mod_name
    ++ "\n    :members:\n    :undoc-members:\n    :show-inheritance:\n"

/-- `all_index_template` of the script, with `{generated}` substituted. -/
def all_index_template (generated : String) : String :=
  "=======================\nQuantEcon documentation\n=======================\n\nAuto-generated documentation by module:\n\n.. toctree::\n   :maxdepth: 2\n\n   "
    ++ generated
    ++ "\n\n\nIndices and tables\n==================\n\n* :ref:`genindex`\n* :ref:`modindex`\n* :ref:`search`\n"

/-- `split_index_template` of the script: a fixed string with no
placeholders. -/
def split_index_template : String :=
  "=======================\nQuantEcon documentation\n=======================\n\nThe `quantecon` python library consists of a number of modules which\nincludes game theory (game_theory), markov chains (markov), random\ngeneration utilities (random), a collection of tools (tools),\nand other utilities (util) which are\nmainly used by developers internal to the package.\n\n.. toctree::\n   :maxdepth: 2\n\n   game_theory\n   markov\n   random\n   tools\n   util\n\nIndices and tables\n==================\n\n* :ref:`genindex`\n* :ref:`modindex`\n* :ref:`search`\n"

/-- `split_file_template` of the script, with `{name}`, `{equals}` and
`{files}` substituted. -/
def split_file_template (name equals files : String) : String :=
  name ++ "\n" ++ equals ++ "\n\n.. toctree::\n   :maxdepth: 2\n\n   " ++ files ++ "\n"

/-- A filesystem side effect of the script: creating a directory
(`os.makedirs`) or writing a file (`open(path, "w")` + write), in
program order. -/
inductive FsEvent where
  | mkdir (path : String) : FsEvent
  | write (path : String) (content : String) : FsEvent
deriving DecidableEq

/-- The path an event touches. -/
def eventPath : FsEvent → String
  | FsEvent.mkdir p => p
  | FsEvent.write p _ => p

/-- The written files, as (path, content) pairs in write order. -/
def writesOf (evs : List FsEvent) : List (String × String) :=
  evs.filterMap (fun e =>
    match e with
    | FsEvent.write p c => some (p, c)
    | FsEvent.mkdir _ => none)

/-- `source_join` of the script: `os.path.join("source", f_name)`. -/
def source_join (f_name : String) : String := "source/" ++ f_name

/-- Modelled from the spec: the helper `gen_module(name, f)` is called by
`all_auto` but is not defined anywhere in the repository sources
available here.  Per the spec (section 4.1), it renders the generic
module-doc template with title equal to the module name and an underline
of `=` of matching length, and writes the result to the open stub
file. -/
def gen_module (name : String) : String := module_template name (eqUnderline name)

/-- The list the flat-mode index is built from (line 179): one entry
`"modules/" ++ x.split(".")[0]` per discovered file name, in glob
order. -/
def flatIndexEntries (globBase : List String) : List String :=
  (globBase.map basename).map (fun x => "modules/" ++ flat_mod_name x)

/-- `all_auto()` of the script (flat layout).  `dirExists` tells whether
an output directory already exists (`os.path.exists`); `globBase` is the
result of `glob("../quantecon/[a-z0-9]*.py")`.  Returns the filesystem
events in program order. -/
def all_auto (dirExists : String → Bool) (globBase : List String) : List FsEvent :=
  let mod_names := globBase.map basename
  (if dirExists (source_join "modules") then [] else [FsEvent.mkdir (source_join "modules")])
    ++ mod_names.map (fun mod =>
        FsEvent.write ("source/modules/" ++ flat_mod_name mod ++ ".rst")
          (gen_module (flat_mod_name mod)))
    ++ [FsEvent.write (source_join "index.rst")
          (all_index_template (pyJoin "\n   " (flatIndexEntries globBase)))]

/-- The stem list a split-mode glob produces: `x.split('/')[-1][:-3]` for
each globbed path. -/
def globStems (files : List String) : List String :=
  files.map (fun x => stripPy (basename x))

/-- A split-mode group member list: glob stems, alphabetized. -/
def sortedStems (files : List String) : List String := pySort (globStems files)

/-- The split-mode `tools` member list: base-level glob stems with the
entry `"version"` removed (Python `list.remove`, first occurrence), then
alphabetized.  Meaningful when `"version"` is present; otherwise
`model_tool` aborts before using it. -/
def toolsMembers (baseGlob : List String) : List String :=
  pySort ((globStems baseGlob).erase "version")

/-- One group's toctree body (lines 260-264):
`"<group>/" + "\n   <group>/".join(members)`. -/
def tocEntry (group : String) (members : List String) : String :=
  group ++ "/" ++ pyJoin ("\n   " ++ group ++ "/") members

/-- The `toc_tree_list` dictionary lookup (lines 266-271). -/
def tocFor (m_name : String) (game_theory markov random tools util : List String) : String :=
  if m_name = "game_theory" then tocEntry "game_theory" game_theory
  else if m_name = "markov" then tocEntry "markov" markov
  else if m_name = "random" then tocEntry "random" random
  else if m_name = "tools" then tocEntry "tools" tools
  else tocEntry "util" util

/-- One group index file's content (lines 273-283): the group label is
replaced by "Game Theory" for `game_theory` and by "Utilities" for
`util` (two sequential `if`s), then `capitalize()`d for the title, with
an `=` underline of the length of the pre-`capitalize` label. -/
def group_file_content (f_name : String) (files : String) : String :=
  let disp1 := if f_name = "game_theory" then "Game Theory" else f_name
  let disp2 := if disp1 = "util" then "Utilities" else disp1
  split_file_template (pyCapitalize disp2) (eqUnderline disp2) files

/-- The directory-creation events of `model_tool` (lines 217-219), in
loop order, one per output folder that does not already exist. -/
def mkdirEvents (dirExists : String → Bool) : List FsEvent :=
  (["game_theory", "markov", "random", "tools", "util"].filter
      (fun d => !dirExists (source_join d))).map
    (fun d => FsEvent.mkdir (source_join d))

/-- The filesystem events of a successful `model_tool` run (lines
217-283), given the five already-computed member lists, in program
order: directory creations, the five stub-writing loops, the top-level
index write, then the five group index writes. -/
def model_tool_events (dirExists : String → Bool)
    (game_theory markov random tools util : List String) : List FsEvent :=
  mkdirEvents dirExists
    ++ game_theory.map (fun mod =>
        FsEvent.write ("source/game_theory/" ++ mod ++ ".rst")
          (game_theory_module_template mod (eqUnderline mod)))
    ++ markov.map (fun mod =>
        FsEvent.write ("source/markov/" ++ mod ++ ".rst")
          (markov_module_template mod (eqUnderline mod)))
    ++ random.map (fun mod =>
        FsEvent.write ("source/random/" ++ mod ++ ".rst")
          (random_module_template mod (eqUnderline mod)))
    ++ tools.map (fun mod =>
        FsEvent.write ("source/tools/" ++ mod ++ ".rst")
          (module_template mod (eqUnderline mod)))
    ++ util.map (fun mod =>
        FsEvent.write ("source/util/" ++ mod ++ ".rst")
          (util_module_template mod (eqUnderline mod)))
    ++ [FsEvent.write (source_join "index.rst") split_index_template]
    ++ ["game_theory", "markov", "random", "tools", "util"].map (fun f_name =>
        FsEvent.write (source_join (f_name ++ ".rst"))
          (group_file_content f_name (tocFor f_name game_theory markov random tools util)))

/-- The error message of Python `list.remove` when the element is
absent. -/
def valueErrorMsg : String := "ValueError: list.remove(x): x not in list"

/-- `model_tool()` of the script (split layout).  The five glob results
are passed in; the discovery phase (lines 186-215, globs, stem
stripping, `tools.remove("version")`, sorting) runs before any
filesystem output, so when `"version"` is absent from the base-level
stems the run aborts with Python's `ValueError` having produced no
events.  Returns the events together with `none` on success or the
uncaught error. -/
def model_tool (dirExists : String → Bool)
    (gtGlob markovGlob randomGlob baseGlob utilGlob : List String) :
    List FsEvent × Option String :=
  if "version" ∈ globStems baseGlob then
    (model_tool_events dirExists (sortedStems gtGlob) (sortedStems markovGlob)
        (sortedStems randomGlob) (toolsMembers baseGlob) (sortedStems utilGlob),
      none)
  else ([], some valueErrorMsg)

/-- The `__main__` dispatch (lines 285-289): `args` models
`sys.argv[1:]`; membership of the token "single" anywhere in it selects
the flat layout, anything else the split layout. -/
def qe_apidoc_main (args : List String) (dirExists : String → Bool)
    (gtGlob markovGlob randomGlob baseGlob utilGlob : List String) :
    List FsEvent × Option String :=
  if "single" ∈ args then (all_auto dirExists baseGlob, none)
  else model_tool dirExists gtGlob markovGlob randomGlob baseGlob utilGlob

/-- The first line of a rendered document: characters before the first
newline. -/
def titleLine (s : String) : String := String.mk (s.data.takeWhile (fun c => c != '\n'))

/-- The lines of a rendered document. -/
def linesOf (s : String) : List String := (splitOnChar '\n' s.data).map String.mk

/-- The event touches one of the five split-layout group outputs: the
group directory itself, a file under it, or the group's index file. -/
def touchesGroupOutput (e : FsEvent) : Prop :=
  ∃ gdir ∈ (["game_theory", "markov", "random", "tools", "util"] : List String),
    eventPath e = source_join gdir
      ∨ (∃ s, eventPath e = source_join gdir ++ "/" ++ s)
      ∨ eventPath e = source_join (gdir ++ ".rst")

instance pyStrLe_isTotal : IsTotal String (fun a b => pyStrLe a b = true) := by
  constructor
  intro a b
  suffices h : ∀ x y : List Char, lexLe x y = true ∨ lexLe y x = true from h a.data b.data
  intro x
  induction x with
  | nil => intro y; left; rfl
  | cons c cs ih =>
    intro y
    cases y with
    | nil => right; rfl
    | cons d ds =>
      by_cases hcd : c = d
      · subst hcd
        rcases ih ds with h | h
        · left; simpa [lexLe] using h
        · right; simpa [lexLe] using h
      · rcases lt_trichotomy c d with h | h | h
        · left; simp [lexLe, hcd, h]
        · exact absurd h hcd
        · right; simp [lexLe, Ne.symm hcd, h]

instance pyStrLe_isTrans : IsTrans String (fun a b => pyStrLe a b = true) := by
  constructor
  intro a b c
  suffices h : ∀ x y z : List Char,
      lexLe x y = true → lexLe y z = true → lexLe x z = true from h a.data b.data c.data
  intro x
  induction x with
  | nil => intro y z _ _; rfl
  | cons a as ih =>
    intro y z hxy hyz
    cases y with
    | nil => simp [lexLe] at hxy
    | cons b bs =>
      cases z with
      | nil => simp [lexLe] at hyz
      | cons c cs =>
        by_cases hab : a = b <;> by_cases hbc : b = c
        · subst hab; subst hbc
          simp only [lexLe, if_pos rfl] at hxy hyz ⊢
          exact ih bs cs hxy hyz
        · subst hab
          simp only [lexLe, if_pos rfl, if_neg hbc, decide_eq_true_eq] at hyz ⊢
          simp [lexLe, hbc, hyz]
        · subst hbc
          simp only [lexLe, if_neg hab, decide_eq_true_eq] at hxy
          simp [lexLe, hab, hxy]
        · simp only [lexLe, if_neg hab, if_neg hbc, decide_eq_true_eq] at hxy hyz
          have hac : a < c := lt_trans hxy hyz
          simp [lexLe, ne_of_lt hac, hac]

instance pyStrLe_isAntisymm : IsAntisymm String (fun a b => pyStrLe a b = true) := by
  constructor
  intro a b
  suffices h : ∀ x y : List Char, lexLe x y = true → lexLe y x = true → x = y by
    intro h1 h2
    exact String.ext (h a.data b.data h1 h2)
  intro x
  induction x with
  | nil =>
    intro y _ hyx
    cases y with
    | nil => rfl
    | cons b bs => simp [lexLe] at hyx
  | cons a as ih =>
    intro y hxy hyx
    cases y with
    | nil => simp [lexLe] at hxy
    | cons b bs =>
      by_cases hab : a = b
      · subst hab
        simp only [lexLe, if_pos rfl] at hxy hyx
        rw [ih bs hxy hyx]
      · simp only [lexLe, if_neg hab, if_neg (Ne.symm hab), decide_eq_true_eq] at hxy hyx
        exact absurd (lt_trans hxy hyx) (lt_irrefl a)

theorem pySort_sorted (l : List String) :
    (pySort l).Sorted (fun a b => pyStrLe a b = true) :=
  List.sorted_insertionSort _ l

theorem pySort_perm (l : List String) : List.Perm (pySort l) l :=
  List.perm_insertionSort _ l

theorem pySort_eq_of_perm {l l' : List String} (h : List.Perm l l') : pySort l = pySort l' :=
  List.eq_of_perm_of_sorted ((pySort_perm l).trans (h.trans (pySort_perm l').symm))
    (pySort_sorted l) (pySort_sorted l')

theorem pySort_sorted_strict {l : List String} (h : l.Nodup) :
    (pySort l).Sorted pyStrLt := by
  have hs := pySort_sorted l
  have hn : (pySort l).Nodup := (pySort_perm l).nodup_iff.mpr h
  exact hs.imp₂ (fun a b hle hne => ⟨hle, hne⟩) hn

theorem mem_pySort {a : String} {l : List String} : a ∈ pySort l ↔ a ∈ l :=
  (pySort_perm l).mem_iff

theorem ne_append_of_take_ne {t q : String} (y : String)
    (h : t.data.take q.data.length ≠ q.data) : t ≠ q ++ y := by
  intro he
  apply h
  rw [he, String.data_append]
  exact List.take_left q.data y.data

theorem append_ne_of_take_ne {t q : String} (y : String)
    (h : t.data.take q.data.length ≠ q.data) : q ++ y ≠ t :=
  (ne_append_of_take_ne y h).symm

theorem append_ne_append_of_take_ne {p q : String} (x y : String) (k : Nat)
    (h1 : k ≤ p.data.length) (h2 : k ≤ q.data.length)
    (h : p.data.take k ≠ q.data.take k) : p ++ x ≠ q ++ y := by
  intro he
  apply h
  have h3 : (p.data ++ x.data).take k = (q.data ++ y.data).take k := by
    rw [← String.data_append, ← String.data_append, he]
  rwa [List.take_append_of_le_length h1, List.take_append_of_le_length h2] at h3

theorem string_append_left_cancel {p a b : String} (h : p ++ a = p ++ b) : a = b := by
  apply String.ext
  have hd := congrArg String.data h
  rw [String.data_append, String.data_append] at hd
  exact List.append_cancel_left hd

theorem string_append_right_cancel {a b s : String} (h : a ++ s = b ++ s) : a = b := by
  apply String.ext
  have hd := congrArg String.data h
  rw [String.data_append, String.data_append] at hd
  exact List.append_cancel_right hd

theorem takeWhile_append_stop {p : Char → Bool} :
    ∀ l1 : List Char, (∀ c ∈ l1, p c = true) → ∀ {c : Char}, p c = false →
      ∀ l2 : List Char, (l1 ++ c :: l2).takeWhile p = l1 := by
  intro l1
  induction l1 with
  | nil =>
    intro _ c hc l2
    simp [List.takeWhile_cons, hc]
  | cons a as ih =>
    intro h c hc l2
    have ha : p a = true := h a (List.mem_cons_self a as)
    simp [List.takeWhile_cons, ha, ih (fun x hx => h x (List.mem_cons_of_mem a hx)) hc l2]

theorem titleLine_of_append {t : String} (rest : String)
    (h : ∀ c ∈ t.data, (c != '\n') = true) :
    titleLine (t ++ "\n" ++ rest) = t := by
  unfold titleLine
  rw [String.append_assoc, String.data_append]
  have hdata : ("\n" ++ rest).data = '\n' :: rest.data := by
    rw [String.data_append]
    rfl
  rw [hdata, takeWhile_append_stop t.data h (by decide) rest.data]

theorem titleLine_split_file {t : String} (e f : String)
    (h : ∀ c ∈ t.data, (c != '\n') = true) :
    titleLine (split_file_template t e f) = t := by
  have hshape : split_file_template t e f
      = t ++ "\n" ++ (e ++ "\n\n.. toctree::\n   :maxdepth: 2\n\n   " ++ f ++ "\n") := by
    unfold split_file_template
    simp [String.append_assoc]
  rw [hshape]
  exact titleLine_of_append _ h

theorem writesOf_append (a b : List FsEvent) :
    writesOf (a ++ b) = writesOf a ++ writesOf b :=
  List.filterMap_append a b _

theorem writesOf_mkdirEvents (d : String → Bool) : writesOf (mkdirEvents d) = [] := by
  unfold writesOf mkdirEvents
  rw [List.filterMap_map]
  simp [Function.comp, List.filterMap_eq_nil_iff]

theorem splitOnChar_ne_nil (sep : Char) : ∀ l : List Char, splitOnChar sep l ≠ [] := by
  intro l
  cases l with
  | nil => simp [splitOnChar]
  | cons a as =>
    by_cases hx : a = sep
    · simp [splitOnChar, hx]
    · simp only [splitOnChar, if_neg hx]
      cases splitOnChar sep as with
      | nil => simp
      | cons hd tl => simp

theorem splitOnChar_headD (sep : Char) :
    ∀ l : List Char, (splitOnChar sep l).headD [] = l.takeWhile (fun c => c != sep) := by
  intro l
  induction l with
  | nil => rfl
  | cons a as ih =>
    by_cases hx : a = sep
    · subst hx
      simp [splitOnChar, List.takeWhile_cons]
    · have hne := splitOnChar_ne_nil sep as
      rcases hsp : splitOnChar sep as with _ | ⟨hd, tl⟩
      · exact absurd hsp hne
      · rw [hsp] at ih
        simp only [splitOnChar, if_neg hx, hsp, List.headD_cons, List.takeWhile_cons,
          bne_iff_ne, ne_eq, hx, not_false_eq_true, if_true, decide_not]
        simp only [List.headD_cons] at ih
        simp [hx, ih]

theorem flat_mod_name_eq_takeWhile (s : String) :
    flat_mod_name s = String.mk (s.data.takeWhile (fun c => c != '.')) := by
  unfold flat_mod_name
  rw [splitOnChar_headD]

theorem write_not_mem_mkdirEvents (d : String → Bool) (p c : String) :
    FsEvent.write p c ∉ mkdirEvents d := by
  intro hmem
  unfold mkdirEvents at hmem
  rcases List.mem_map.mp hmem with ⟨x, _, heq⟩
  exact FsEvent.noConfusion heq

theorem not_mem_map_write {α : Type} {path content : α → String} {l : List α} {target : String}
    (h : ∀ x ∈ l, path x ≠ target) (c : String) :
    FsEvent.write target c ∉ l.map (fun x => FsEvent.write (path x) (content x)) := by
  intro hmem
  rcases List.mem_map.mp hmem with ⟨x, hx, heq⟩
  have hp : path x = target := congrArg eventPath heq
  exact h x hx hp

/-- C10: in split-layout mode all discovery globs, stem stripping and the
removal of "version" from the tools list (lines 186-215) happen before
any output directory is created or file is written (lines 217 on); a run
that aborts because "version" is absent from the discovered tools stems
therefore produces no filesystem event at all: the output state is
unchanged on this error. -/
theorem C10_abort_before_output (dirExists : String → Bool)
    (gtGlob markovGlob randomGlob baseGlob utilGlob : List String)
    (habs : "version" ∉ globStems baseGlob) :
    model_tool dirExists gtGlob markovGlob randomGlob baseGlob utilGlob
      = ([], some valueErrorMsg) := by
  unfold model_tool
  rw [if_neg habs]

theorem C10_witness :
    ("version" ∉ globStems ["../quantecon/foo.py"])
      ∧ model_tool (fun _ => false) [] [] [] ["../quantecon/foo.py"] []
          = ([], some valueErrorMsg) :=
  ⟨by decide, C10_abort_before_output (fun _ => false) [] [] [] ["../quantecon/foo.py"] []
      (by decide)⟩

/-- C4 counterexample: a split-layout run whose base-level glob is empty
is a run "in either mode" with an empty discovery result, yet it aborts
with the uncaught `ValueError` from `tools.remove("version")` instead of
completing, refuting the claim as stated. -/
theorem C4_counterexample :
    model_tool (fun _ => false) [] [] [] [] [] = ([], some valueErrorMsg) := by decide

/-- C4 (amended): an empty discovery result is not an error in flat mode
(the run completes and the index is written with an empty entry list) nor
for the four split-mode group directories; but a split-mode run whose
base-level (tools) glob is empty aborts with the uncaught error from
removing "version". -/
theorem C4_empty_discovery (dirExists : String → Bool) (baseGlob : List String)
    (hv : "version" ∈ globStems baseGlob) :
    (model_tool dirExists [] [] [] baseGlob []).2 = none
    ∧ (∀ gtGlob markovGlob randomGlob utilGlob,
        model_tool dirExists gtGlob markovGlob randomGlob [] utilGlob
          = ([], some valueErrorMsg))
    ∧ (∀ p c, FsEvent.write p c ∈ all_auto dirExists [] →
        p = source_join "index.rst" ∧ c = all_index_template "") := by
  refine ⟨?_, ?_, ?_⟩
  · unfold model_tool
    rw [if_pos hv]
  · intro gtGlob markovGlob randomGlob utilGlob
    unfold model_tool
    rw [if_neg (by simp [globStems])]
  · intro p c hmem
    by_cases hd : dirExists (source_join "modules") <;>
      simp [all_auto, flatIndexEntries, hd, pyJoin] at hmem <;>
      exact hmem

theorem C4_witness :
    ("version" ∈ globStems ["../quantecon/version.py"])
      ∧ ((model_tool (fun _ => false) [] [] [] ["../quantecon/version.py"] []).2 = none
        ∧ (∀ gtGlob markovGlob randomGlob utilGlob,
            model_tool (fun _ => false) gtGlob markovGlob randomGlob [] utilGlob
              = ([], some valueErrorMsg))
        ∧ (∀ p c, FsEvent.write p c ∈ all_auto (fun _ => false) [] →
            p = source_join "index.rst" ∧ c = all_index_template "")) :=
  ⟨by decide, C4_empty_discovery (fun _ => false) ["../quantecon/version.py"] (by decide)⟩

/-- C3 counterexample: the legal base name "foo.bar.py" matches the glob
pattern `[a-z0-9]*.py`, but the flat-mode derived module name
(`mod.split(".")[0]`, line 172) is "foo", not the extension-stripped stem
"foo.bar": the claim fails for names whose stem contains a dot. -/
theorem C3_counterexample :
    matchesToolGlob "foo.bar.py" = true
    ∧ flat_mod_name "foo.bar.py" = "foo"
    ∧ stripPy "foo.bar.py" = "foo.bar"
    ∧ flat_mod_name "foo.bar.py" ≠ stripPy "foo.bar.py" := by decide

/-- C3 (amended): in flat-layout mode the derived module name is the part
of the base name before the first dot; for a file `<stem>.py` it equals
the full extension-stripped stem exactly when the stem contains no
dot. -/
theorem C3_flat_module_name (stem : String)
    (h : ∀ c ∈ stem.data, (c != '.') = true) :
    flat_mod_name (stem ++ ".py") = stem := by
  rw [flat_mod_name_eq_takeWhile, String.data_append]
  have hpy : (".py").data = '.' :: "py".data := rfl
  rw [hpy, takeWhile_append_stop stem.data h (by decide) _]

theorem C3_witness :
    (∀ c ∈ ("markov" : String).data, (c != '.') = true)
      ∧ flat_mod_name ("markov" ++ ".py") = "markov" :=
  ⟨by decide, C3_flat_module_name "markov" (by decide)⟩

/-- C5: in every split-layout run the five per-group member lists, as
passed to the stub-writing loops and the group toctrees, are sorted in
strict ascending case-sensitive lexical order (assuming, as the glob
guarantees, that the discovered stems of each directory are distinct). -/
theorem C5_group_lists_sorted (dirExists : String → Bool)
    (gtGlob markovGlob randomGlob baseGlob utilGlob : List String)
    (hv : "version" ∈ globStems baseGlob)
    (hg : (globStems gtGlob).Nodup) (hm : (globStems markovGlob).Nodup)
    (hr : (globStems randomGlob).Nodup) (hb : (globStems baseGlob).Nodup)
    (hu : (globStems utilGlob).Nodup) :
    model_tool dirExists gtGlob markovGlob randomGlob baseGlob utilGlob
      = (model_tool_events dirExists (sortedStems gtGlob) (sortedStems markovGlob)
          (sortedStems randomGlob) (toolsMembers baseGlob) (sortedStems utilGlob), none)
    ∧ (sortedStems gtGlob).Sorted pyStrLt
    ∧ (sortedStems markovGlob).Sorted pyStrLt
    ∧ (sortedStems randomGlob).Sorted pyStrLt
    ∧ (toolsMembers baseGlob).Sorted pyStrLt
    ∧ (sortedStems utilGlob).Sorted pyStrLt := by
  refine ⟨?_, pySort_sorted_strict hg, pySort_sorted_strict hm, pySort_sorted_strict hr,
    pySort_sorted_strict (hb.erase "version"), pySort_sorted_strict hu⟩
  unfold model_tool
  rw [if_pos hv]

theorem C5_witness :
    (("version" ∈ globStems ["../quantecon/version.py", "../quantecon/b.py"])
      ∧ (globStems ["../quantecon/g2.py", "../quantecon/g1.py"]).Nodup
      ∧ (globStems ["../quantecon/m.py"]).Nodup
      ∧ (globStems ([] : List String)).Nodup
      ∧ (globStems ["../quantecon/version.py", "../quantecon/b.py"]).Nodup
      ∧ (globStems ["../quantecon/u.py"]).Nodup)
    ∧ (model_tool (fun _ => true) ["../quantecon/g2.py", "../quantecon/g1.py"]
          ["../quantecon/m.py"] [] ["../quantecon/version.py", "../quantecon/b.py"]
          ["../quantecon/u.py"]
        = (model_tool_events (fun _ => true)
            (sortedStems ["../quantecon/g2.py", "../quantecon/g1.py"])
            (sortedStems ["../quantecon/m.py"]) (sortedStems [])
            (toolsMembers ["../quantecon/version.py", "../quantecon/b.py"])
            (sortedStems ["../quantecon/u.py"]), none)
      ∧ (sortedStems ["../quantecon/g2.py", "../quantecon/g1.py"]).Sorted pyStrLt
      ∧ (sortedStems ["../quantecon/m.py"]).Sorted pyStrLt
      ∧ (sortedStems ([] : List String)).Sorted pyStrLt
      ∧ (toolsMembers ["../quantecon/version.py", "../quantecon/b.py"]).Sorted pyStrLt
      ∧ (sortedStems ["../quantecon/u.py"]).Sorted pyStrLt) :=
  ⟨⟨by decide, by decide, by decide, by decide, by decide, by decide⟩,
    C5_group_lists_sorted (fun _ => true) ["../quantecon/g2.py", "../quantecon/g1.py"]
      ["../quantecon/m.py"] [] ["../quantecon/version.py", "../quantecon/b.py"]
      ["../quantecon/u.py"] (by decide) (by decide) (by decide) (by decide) (by decide)
      (by decide)⟩

/-- C6: the split-layout generator's file output is a deterministic
function of the sets of discovered stems, independent of directory
listing order (every group list is sorted before use) and of which
output directories already exist; in particular re-running it on an
unchanged source tree writes byte-identical files. -/
theorem C6_output_deterministic (d d' : String → Bool)
    (g g' m m' r r' b b' u u' : List String)
    (hg : List.Perm (globStems g) (globStems g'))
    (hm : List.Perm (globStems m) (globStems m'))
    (hr : List.Perm (globStems r) (globStems r'))
    (hb : List.Perm (globStems b) (globStems b'))
    (hu : List.Perm (globStems u) (globStems u')) :
    writesOf (model_tool d g m r b u).1 = writesOf (model_tool d' g' m' r' b' u').1
    ∧ (model_tool d g m r b u).2 = (model_tool d' g' m' r' b' u').2 := by
  have hgs : sortedStems g = sortedStems g' := pySort_eq_of_perm hg
  have hms : sortedStems m = sortedStems m' := pySort_eq_of_perm hm
  have hrs : sortedStems r = sortedStems r' := pySort_eq_of_perm hr
  have hus : sortedStems u = sortedStems u' := pySort_eq_of_perm hu
  have hts : toolsMembers b = toolsMembers b' := pySort_eq_of_perm (hb.erase "version")
  by_cases hv : "version" ∈ globStems b
  · have hv' : "version" ∈ globStems b' := hb.mem_iff.mp hv
    unfold model_tool
    rw [if_pos hv, if_pos hv', hgs, hms, hrs, hts, hus]
    refine ⟨?_, rfl⟩
    unfold model_tool_events
    simp only [writesOf_append, writesOf_mkdirEvents, List.nil_append]
  · have hv' : "version" ∉ globStems b' := fun hh => hv (hb.mem_iff.mpr hh)
    unfold model_tool
    rw [if_neg hv, if_neg hv']
    exact ⟨rfl, rfl⟩

theorem C6_witness :
    (List.Perm (globStems ["../quantecon/g1.py", "../quantecon/g2.py"])
        (globStems ["../quantecon/g2.py", "../quantecon/g1.py"])
      ∧ List.Perm (globStems ([] : List String)) (globStems ([] : List String))
      ∧ List.Perm (globStems ([] : List String)) (globStems ([] : List String))
      ∧ List.Perm (globStems ["../quantecon/b.py", "../quantecon/version.py"])
          (globStems ["../quantecon/version.py", "../quantecon/b.py"])
      ∧ List.Perm (globStems ([] : List String)) (globStems ([] : List String)))
    ∧ (writesOf (model_tool (fun _ => true) ["../quantecon/g1.py", "../quantecon/g2.py"]
            [] [] ["../quantecon/b.py", "../quantecon/version.py"] []).1
        = writesOf (model_tool (fun _ => false) ["../quantecon/g2.py", "../quantecon/g1.py"]
            [] [] ["../quantecon/version.py", "../quantecon/b.py"] []).1
      ∧ (model_tool (fun _ => true) ["../quantecon/g1.py", "../quantecon/g2.py"]
            [] [] ["../quantecon/b.py", "../quantecon/version.py"] []).2
        = (model_tool (fun _ => false) ["../quantecon/g2.py", "../quantecon/g1.py"]
            [] [] ["../quantecon/version.py", "../quantecon/b.py"] []).2) :=
  ⟨⟨by decide, by decide, by decide, by decide, by decide⟩,
    C6_output_deterministic (fun _ => true) (fun _ => false)
      ["../quantecon/g1.py", "../quantecon/g2.py"] ["../quantecon/g2.py", "../quantecon/g1.py"]
      [] [] [] [] ["../quantecon/b.py", "../quantecon/version.py"]
      ["../quantecon/version.py", "../quantecon/b.py"] [] []
      (by decide) (by decide) (by decide) (by decide) (by decide)⟩

/-- C1: in split-layout mode the exact entry "version" is removed from
the discovered tools stems before sorting and writing, so the written
tools output never contains a stub for "version" (the glob's stems are
distinct, which the `Nodup` hypothesis records); and a run in which
"version" is absent from the discovered tools stems aborts with the
fatal, unhandled `ValueError`. -/
theorem C1_version_removed (dirExists : String → Bool)
    (gtGlob markovGlob randomGlob baseGlob utilGlob : List String)
    (hnd : (globStems baseGlob).Nodup) :
    "version" ∉ toolsMembers baseGlob
    ∧ (∀ c, FsEvent.write "source/tools/version.rst" c
        ∉ (model_tool dirExists gtGlob markovGlob randomGlob baseGlob utilGlob).1)
    ∧ ("version" ∉ globStems baseGlob →
        model_tool dirExists gtGlob markovGlob randomGlob baseGlob utilGlob
          = ([], some valueErrorMsg)) := by
  have hnm : "version" ∉ toolsMembers baseGlob := by
    intro hmem
    exact hnd.not_mem_erase (mem_pySort.mp hmem)
  refine ⟨hnm, ?_, ?_⟩
  · intro c hmem
    by_cases hv : "version" ∈ globStems baseGlob
    · unfold model_tool at hmem
      rw [if_pos hv] at hmem
      unfold model_tool_events at hmem
      simp only [List.mem_append] at hmem
      rcases hmem with ((((((hh | hh) | hh) | hh) | hh) | hh) | hh) | hh
      · exact write_not_mem_mkdirEvents dirExists _ c hh
      · refine not_mem_map_write (fun x _ => ?_) c hh
        rw [String.append_assoc]
        exact append_ne_of_take_ne _ (by decide)
      · refine not_mem_map_write (fun x _ => ?_) c hh
        rw [String.append_assoc]
        exact append_ne_of_take_ne _ (by decide)
      · refine not_mem_map_write (fun x _ => ?_) c hh
        rw [String.append_assoc]
        exact append_ne_of_take_ne _ (by decide)
      · refine not_mem_map_write (fun x hx heq => ?_) c hh
        have htgt : ("source/tools/" ++ "version") ++ ".rst"
            = "source/tools/version.rst" := by decide
        have hx2 : "source/tools/" ++ x = "source/tools/" ++ "version" :=
          string_append_right_cancel (heq.trans htgt.symm)
        have hx3 : x = "version" := string_append_left_cancel hx2
        rw [hx3] at hx
        exact hnm hx
      · refine not_mem_map_write (fun x _ => ?_) c hh
        rw [String.append_assoc]
        exact append_ne_of_take_ne _ (by decide)
      · rcases List.mem_singleton.mp hh with heq
        have hp : source_join "index.rst" = "source/tools/version.rst" :=
          congrArg eventPath heq.symm
        exact absurd hp (by decide)
      · refine not_mem_map_write (fun x hx => ?_) c hh
        fin_cases hx <;> exact (by decide)
    · unfold model_tool at hmem
      rw [if_neg hv] at hmem
      exact List.not_mem_nil _ hmem
  · intro habs
    unfold model_tool
    rw [if_neg habs]

theorem C1_witness :
    ((globStems ["../quantecon/version.py", "../quantecon/b.py"]).Nodup)
    ∧ ("version" ∉ toolsMembers ["../quantecon/version.py", "../quantecon/b.py"]
      ∧ (∀ c, FsEvent.write "source/tools/version.rst" c
          ∉ (model_tool (fun _ => true) [] [] []
              ["../quantecon/version.py", "../quantecon/b.py"] []).1)
      ∧ ("version" ∉ globStems ["../quantecon/version.py", "../quantecon/b.py"] →
          model_tool (fun _ => true) [] [] []
              ["../quantecon/version.py", "../quantecon/b.py"] []
            = ([], some valueErrorMsg))) :=
  ⟨by decide, C1_version_removed (fun _ => true) [] [] []
      ["../quantecon/version.py", "../quantecon/b.py"] [] (by decide)⟩

/-- C7: in flat-layout mode the written index contains exactly one
toctree entry per discovered module, of the form `modules/<name>` with
`<name>` the derived module name, in glob order (no sorting is applied):
the entry list is the elementwise image of the glob result, with equal
length and every entry carrying the `modules/` path prefix.  (The stub
helper `gen_module` the flat mode calls is modelled from the spec, being
absent from the sources here.) -/
theorem C7_flat_index_entries (dirExists : String → Bool) (globBase : List String) :
    FsEvent.write (source_join "index.rst")
        (all_index_template (pyJoin "\n   " (flatIndexEntries globBase)))
      ∈ all_auto dirExists globBase
    ∧ flatIndexEntries globBase
        = globBase.map (fun x => "modules/" ++ flat_mod_name (basename x))
    ∧ (flatIndexEntries globBase).length = globBase.length
    ∧ (∀ e ∈ flatIndexEntries globBase, ∃ s, e = "modules/" ++ s) := by
  refine ⟨?_, ?_, ?_, ?_⟩
  · unfold all_auto
    exact List.mem_append_right _ (List.mem_singleton.mpr rfl)
  · unfold flatIndexEntries
    rw [List.map_map]
    rfl
  · unfold flatIndexEntries
    rw [List.length_map, List.length_map]
  · intro e he
    unfold flatIndexEntries at he
    rcases List.mem_map.mp he with ⟨x, _, heq⟩
    exact ⟨flat_mod_name x, heq.symm⟩

theorem C7_witness :
    FsEvent.write (source_join "index.rst")
        (all_index_template
          (pyJoin "\n   " (flatIndexEntries ["../quantecon/b.py", "../quantecon/a.py"])))
      ∈ all_auto (fun _ => false) ["../quantecon/b.py", "../quantecon/a.py"]
    ∧ flatIndexEntries ["../quantecon/b.py", "../quantecon/a.py"]
        = ["../quantecon/b.py", "../quantecon/a.py"].map
            (fun x => "modules/" ++ flat_mod_name (basename x))
    ∧ (flatIndexEntries ["../quantecon/b.py", "../quantecon/a.py"]).length
        = (["../quantecon/b.py", "../quantecon/a.py"] : List String).length
    ∧ (∀ e ∈ flatIndexEntries ["../quantecon/b.py", "../quantecon/a.py"],
        ∃ s, e = "modules/" ++ s) :=
  C7_flat_index_entries (fun _ => false) ["../quantecon/b.py", "../quantecon/a.py"]

/-- C2 counterexample: at a concrete split-layout run the group index
file written for `game_theory` has title line "Game theory", because the
script applies `capitalize()` (which lowercases every character after the
first) to the special-cased label "Game Theory"; the claim's title
"Game Theory" is therefore not the written title. -/
theorem C2_counterexample :
    (FsEvent.write "source/game_theory.rst"
        (group_file_content "game_theory" (tocEntry "game_theory" []))
      ∈ (model_tool (fun _ => true) [] [] [] ["../quantecon/version.py"] []).1)
    ∧ titleLine (group_file_content "game_theory" (tocEntry "game_theory" [])) = "Game theory"
    ∧ "Game theory" ≠ "Game Theory" := by decide

theorem group_write_mem (d : String → Bool) (gl ml rl tl ul : List String)
    {name : String}
    (hname : name ∈ (["game_theory", "markov", "random", "tools", "util"] : List String)) :
    FsEvent.write (source_join (name ++ ".rst"))
        (group_file_content name (tocFor name gl ml rl tl ul))
      ∈ model_tool_events d gl ml rl tl ul := by
  unfold model_tool_events
  exact List.mem_append_right _ (List.mem_map.mpr ⟨name, hname, rfl⟩)

/-- C2 (amended): in split-layout mode each successful run writes one
index file per group whose title line is the `capitalize()`d display
label: "Game theory" (not "Game Theory") for the `game_theory` group,
"Utilities" for the `util` group, and the capitalized group label
("Markov", "Random", "Tools") for the others. -/
theorem C2_group_titles (dirExists : String → Bool)
    (gtGlob markovGlob randomGlob baseGlob utilGlob : List String)
    (hv : "version" ∈ globStems baseGlob) :
    (∀ files, titleLine (group_file_content "game_theory" files) = "Game theory")
    ∧ (∀ files, titleLine (group_file_content "util" files) = "Utilities")
    ∧ (∀ files, titleLine (group_file_content "markov" files) = "Markov")
    ∧ (∀ files, titleLine (group_file_content "random" files) = "Random")
    ∧ (∀ files, titleLine (group_file_content "tools" files) = "Tools")
    ∧ (∀ name ∈ (["game_theory", "markov", "random", "tools", "util"] : List String),
        FsEvent.write (source_join (name ++ ".rst"))
            (group_file_content name
              (tocFor name (sortedStems gtGlob) (sortedStems markovGlob)
                (sortedStems randomGlob) (toolsMembers baseGlob) (sortedStems utilGlob)))
          ∈ (model_tool dirExists gtGlob markovGlob randomGlob baseGlob utilGlob).1) := by
  refine ⟨?_, ?_, ?_, ?_, ?_, ?_⟩
  · intro files
    have hc : group_file_content "game_theory" files
        = split_file_template (pyCapitalize "Game Theory") (eqUnderline "Game Theory") files := by
      simp [group_file_content]
    rw [hc, show pyCapitalize "Game Theory" = "Game theory" from by decide]
    exact titleLine_split_file (eqUnderline "Game Theory") files (by decide)
  · intro files
    have hc : group_file_content "util" files
        = split_file_template (pyCapitalize "Utilities") (eqUnderline "Utilities") files := by
      simp [group_file_content]
    rw [hc, show pyCapitalize "Utilities" = "Utilities" from by decide]
    exact titleLine_split_file (eqUnderline "Utilities") files (by decide)
  · intro files
    have hc : group_file_content "markov" files
        = split_file_template (pyCapitalize "markov") (eqUnderline "markov") files := by
      simp [group_file_content]
    rw [hc, show pyCapitalize "markov" = "Markov" from by decide]
    exact titleLine_split_file (eqUnderline "markov") files (by decide)
  · intro files
    have hc : group_file_content "random" files
        = split_file_template (pyCapitalize "random") (eqUnderline "random") files := by
      simp [group_file_content]
    rw [hc, show pyCapitalize "random" = "Random" from by decide]
    exact titleLine_split_file (eqUnderline "random") files (by decide)
  · intro files
    have hc : group_file_content "tools" files
        = split_file_template (pyCapitalize "tools") (eqUnderline "tools") files := by
      simp [group_file_content]
    rw [hc, show pyCapitalize "tools" = "Tools" from by decide]
    exact titleLine_split_file (eqUnderline "tools") files (by decide)
  · intro name hname
    unfold model_tool
    rw [if_pos hv]
    exact group_write_mem dirExists _ _ _ _ _ hname

theorem C2_witness :
    ("version" ∈ globStems ["../quantecon/version.py", "../quantecon/b.py"])
    ∧ ((∀ files, titleLine (group_file_content "game_theory" files) = "Game theory")
      ∧ (∀ files, titleLine (group_file_content "util" files) = "Utilities")
      ∧ (∀ files, titleLine (group_file_content "markov" files) = "Markov")
      ∧ (∀ files, titleLine (group_file_content "random" files) = "Random")
      ∧ (∀ files, titleLine (group_file_content "tools" files) = "Tools")
      ∧ (∀ name ∈ (["game_theory", "markov", "random", "tools", "util"] : List String),
          FsEvent.write (source_join (name ++ ".rst"))
              (group_file_content name
                (tocFor name (sortedStems []) (sortedStems [])
                  (sortedStems []) (toolsMembers ["../quantecon/version.py", "../quantecon/b.py"])
                  (sortedStems [])))
            ∈ (model_tool (fun _ => true) [] [] []
                ["../quantecon/version.py", "../quantecon/b.py"] []).1)) :=
  ⟨by decide, C2_group_titles (fun _ => true) [] [] []
      ["../quantecon/version.py", "../quantecon/b.py"] [] (by decide)⟩

/-- C8: in split-layout mode the top-level index is the fixed string
`split_index_template`, written whatever the discovered names are: the
index write event carries exactly that string, every write to the
top-level index path carries it, and its toctree lines are exactly the
five group names game_theory, markov, random, tools, util. -/
theorem C8_split_index_fixed (dirExists : String → Bool)
    (gtGlob markovGlob randomGlob baseGlob utilGlob : List String)
    (hv : "version" ∈ globStems baseGlob) :
    FsEvent.write (source_join "index.rst") split_index_template
      ∈ (model_tool dirExists gtGlob markovGlob randomGlob baseGlob utilGlob).1
    ∧ (∀ c, FsEvent.write (source_join "index.rst") c
          ∈ (model_tool dirExists gtGlob markovGlob randomGlob baseGlob utilGlob).1 →
        c = split_index_template)
    ∧ (linesOf split_index_template).filter
        (fun l => ("   ".data).isPrefixOf l.data && l != "   :maxdepth: 2")
        = ["   game_theory", "   markov", "   random", "   tools", "   util"] := by
  refine ⟨?_, ?_, by decide⟩
  · unfold model_tool
    rw [if_pos hv]
    unfold model_tool_events
    exact List.mem_append_left _
      (List.mem_append_right _ (List.mem_singleton.mpr rfl))
  · intro c hmem
    unfold model_tool at hmem
    rw [if_pos hv] at hmem
    unfold model_tool_events at hmem
    simp only [List.mem_append] at hmem
    rcases hmem with ((((((hh | hh) | hh) | hh) | hh) | hh) | hh) | hh
    · exact absurd hh (write_not_mem_mkdirEvents dirExists _ c)
    · exact absurd hh (not_mem_map_write (fun x _ => by
        rw [String.append_assoc]
        exact append_ne_of_take_ne _ (by decide)) c)
    · exact absurd hh (not_mem_map_write (fun x _ => by
        rw [String.append_assoc]
        exact append_ne_of_take_ne _ (by decide)) c)
    · exact absurd hh (not_mem_map_write (fun x _ => by
        rw [String.append_assoc]
        exact append_ne_of_take_ne _ (by decide)) c)
    · exact absurd hh (not_mem_map_write (fun x _ => by
        rw [String.append_assoc]
        exact append_ne_of_take_ne _ (by decide)) c)
    · exact absurd hh (not_mem_map_write (fun x _ => by
        rw [String.append_assoc]
        exact append_ne_of_take_ne _ (by decide)) c)
    · have heq := List.mem_singleton.mp hh
      injection heq with hp hc
    · exact absurd hh (not_mem_map_write (fun x hx => by
        fin_cases hx <;> exact (by decide)) c)

theorem C8_witness :
    ("version" ∈ globStems ["../quantecon/version.py", "../quantecon/b.py"])
    ∧ (FsEvent.write (source_join "index.rst") split_index_template
        ∈ (model_tool (fun _ => true) [] [] []
            ["../quantecon/version.py", "../quantecon/b.py"] []).1
      ∧ (∀ c, FsEvent.write (source_join "index.rst") c
            ∈ (model_tool (fun _ => true) [] [] []
                ["../quantecon/version.py", "../quantecon/b.py"] []).1 →
          c = split_index_template)
      ∧ (linesOf split_index_template).filter
          (fun l => ("   ".data).isPrefixOf l.data && l != "   :maxdepth: 2")
          = ["   game_theory", "   markov", "   random", "   tools", "   util"]) :=
  ⟨by decide, C8_split_index_fixed (fun _ => true) [] [] []
      ["../quantecon/version.py", "../quantecon/b.py"] [] (by decide)⟩

theorem all_auto_paths (dirExists : String → Bool) (globBase : List String) :
    ∀ e ∈ all_auto dirExists globBase,
      eventPath e = source_join "modules"
      ∨ (∃ s, eventPath e = "source/modules/" ++ s ++ ".rst")
      ∨ eventPath e = source_join "index.rst" := by
  intro e he
  unfold all_auto at he
  simp only [List.mem_append] at he
  rcases he with (h1 | h2) | h3
  · by_cases hd : dirExists (source_join "modules")
    · rw [if_pos hd] at h1
      exact absurd h1 (List.not_mem_nil e)
    · rw [if_neg hd] at h1
      rcases List.mem_singleton.mp h1 with rfl
      exact Or.inl rfl
  · rcases List.mem_map.mp h2 with ⟨mod, _, rfl⟩
    exact Or.inr (Or.inl ⟨flat_mod_name mod, rfl⟩)
  · rcases List.mem_singleton.mp h3 with rfl
    exact Or.inr (Or.inr rfl)

/-- C9: an argument list containing the token "single" runs the
flat-layout operation, whose filesystem events touch only the
`source/modules` directory, files `source/modules/<name>.rst` under it,
and `source/index.rst` — in particular no split-layout group directory,
group file, or group index is created or modified; any argument list not
containing "single" runs the split-layout operation instead. -/
theorem C9_dispatch_and_frame (args : List String) (dirExists : String → Bool)
    (gtGlob markovGlob randomGlob baseGlob utilGlob : List String) :
    ("single" ∈ args →
      qe_apidoc_main args dirExists gtGlob markovGlob randomGlob baseGlob utilGlob
        = (all_auto dirExists baseGlob, none)
      ∧ (∀ e ∈ all_auto dirExists baseGlob,
          eventPath e = source_join "modules"
          ∨ (∃ s, eventPath e = "source/modules/" ++ s ++ ".rst")
          ∨ eventPath e = source_join "index.rst")
      ∧ (∀ e ∈ all_auto dirExists baseGlob, ¬ touchesGroupOutput e))
    ∧ ("single" ∉ args →
      qe_apidoc_main args dirExists gtGlob markovGlob randomGlob baseGlob utilGlob
        = model_tool dirExists gtGlob markovGlob randomGlob baseGlob utilGlob) := by
  constructor
  · intro hs
    refine ⟨by unfold qe_apidoc_main; rw [if_pos hs],
      all_auto_paths dirExists baseGlob, ?_⟩
    intro e he htouch
    rcases htouch with ⟨gdir, hgdir, hcase⟩
    simp only [List.mem_cons, List.not_mem_nil, or_false] at hgdir
    rcases all_auto_paths dirExists baseGlob e he with hA | ⟨s, hB⟩ | hC
    · rcases hcase with h1 | ⟨s2, h2⟩ | h3
      · have hc := hA.symm.trans h1
        rcases hgdir with rfl | rfl | rfl | rfl | rfl <;> exact absurd hc (by decide)
      · have hc := hA.symm.trans h2
        rcases hgdir with rfl | rfl | rfl | rfl | rfl <;>
          exact (ne_append_of_take_ne s2 (by decide)) hc
      · have hc := hA.symm.trans h3
        rcases hgdir with rfl | rfl | rfl | rfl | rfl <;> exact absurd hc (by decide)
    · rcases hcase with h1 | ⟨s2, h2⟩ | h3
      · have hc := hB.symm.trans h1
        rw [String.append_assoc] at hc
        rcases hgdir with rfl | rfl | rfl | rfl | rfl <;>
          exact (append_ne_of_take_ne (s ++ ".rst") (by decide)) hc
      · have hc := hB.symm.trans h2
        rw [String.append_assoc] at hc
        rcases hgdir with rfl | rfl | rfl | rfl | rfl <;>
          exact (append_ne_append_of_take_ne (s ++ ".rst") s2 9 (by decide) (by decide)
            (by decide)) hc
      · have hc := hB.symm.trans h3
        rw [String.append_assoc] at hc
        rcases hgdir with rfl | rfl | rfl | rfl | rfl <;>
          exact (append_ne_of_take_ne (s ++ ".rst") (by decide)) hc
    · rcases hcase with h1 | ⟨s2, h2⟩ | h3
      · have hc := hC.symm.trans h1
        rcases hgdir with rfl | rfl | rfl | rfl | rfl <;> exact absurd hc (by decide)
      · have hc := hC.symm.trans h2
        rcases hgdir with rfl | rfl | rfl | rfl | rfl <;>
          exact (ne_append_of_take_ne s2 (by decide)) hc
      · have hc := hC.symm.trans h3
        rcases hgdir with rfl | rfl | rfl | rfl | rfl <;> exact absurd hc (by decide)
  · intro hns
    unfold qe_apidoc_main
    rw [if_neg hns]

theorem C9_witness :
    (("single" ∈ (["single"] : List String) →
      qe_apidoc_main ["single"] (fun _ => false) [] [] [] ["../quantecon/a.py"] []
        = (all_auto (fun _ => false) ["../quantecon/a.py"], none)
      ∧ (∀ e ∈ all_auto (fun _ => false) ["../quantecon/a.py"],
          eventPath e = source_join "modules"
          ∨ (∃ s, eventPath e = "source/modules/" ++ s ++ ".rst")
          ∨ eventPath e = source_join "index.rst")
      ∧ (∀ e ∈ all_auto (fun _ => false) ["../quantecon/a.py"], ¬ touchesGroupOutput e))
    ∧ ("single" ∉ (["single"] : List String) →
      qe_apidoc_main ["single"] (fun _ => false) [] [] [] ["../quantecon/a.py"] []
        = model_tool (fun _ => false) [] [] [] ["../quantecon/a.py"] []))
    ∧ "single" ∈ (["single"] : List String) :=
  ⟨C9_dispatch_and_frame ["single"] (fun _ => false) [] [] [] ["../quantecon/a.py"] [],
    by decide⟩
